import Mathlib

/-!
Verification development for the SmartFlow3 copy-trading engine.

The definitions below are a shallow embedding of the Python sources:
  - `parse_tx` and its helpers embed `services/solana/monitor.py` (`parse_tx`),
  - the `PMState` operations embed `core/portfolio.py` (`PortfolioManager`),
  - `get_token_balance_raw` embeds `services/solana/trader.py`,
  - the replay fold embeds `PortfolioManager.send_daily_summary`.

Python dictionaries are embedded as functions into `Option`, Python numbers as
`Int`/`Rat` (exact arithmetic in place of IEEE floats), and Python exceptions
(`KeyError` from `d['k']` subscripting) as `Except` results.  External
collaborators (RPC balance lookups, Jupiter quotes, swap execution) are passed
in as explicit parameters, since the source awaits them through narrow
interfaces.
-/

namespace SmartFlow

/-! ## Transaction parser (services/solana/monitor.py) -/

/-- A Python `KeyError k` raised by a `d['k']` subscript. -/
inductive PyErr where
  | keyError (k : String)
deriving DecidableEq, Repr

/-- One entry of `tx_data['tokenTransfers']`; `none` marks a missing key. -/
structure TokenTransfer where
  mint : Option String
  fromUserAccount : Option String
  toUserAccount : Option String
  tokenAmount : Option ℚ
deriving DecidableEq, Repr

/-- One entry of `tx_data['nativeTransfers']`; `none` marks a missing key. -/
structure NativeTransfer where
  fromUserAccount : Option String
  toUserAccount : Option String
  amount : Option ℤ
deriving DecidableEq, Repr

/-- A raw transaction record; `none` fields mark missing top-level keys,
read in the source with `tx_data.get(..., [])`. -/
structure TxData where
  tokenTransfers : Option (List TokenTransfer)
  nativeTransfers : Option (List NativeTransfer)
deriving DecidableEq, Repr

/-- The dictionary built by `parse_tx`. -/
structure TradeInfo where
  action : String
  token_address : Option String
  amount : ℚ
  sol_spent : ℚ
deriving DecidableEq, Repr

/-- The ignore-set of stable/base-currency mints (monitor.py `IGNORE_MINTS`). -/
def IGNORE_MINTS : List String :=
  [ "So11111111111111111111111111111111111111112"
  , "EPjFWdd5AufqSSqeM2qN1xzybapC8G4wEGGkZwyTDt1v"
  , "Es9vMFrzaCERmJfrF4H2FYD4KCoNkY11McCe8BenwNYB" ]

/-- `d['k']`: yields the value or raises `KeyError k`. -/
def getItem {α : Type} (o : Option α) (k : String) : Except PyErr α :=
  match o with
  | some v => .ok v
  | none => .error (.keyError k)

/-- Body of the token-transfer loop of `parse_tx`, for one entry.  The
accumulator is the pair `(out_tokens, in_tokens)`.  Field accesses happen in
source order: `mint` first, then (unless the mint is ignored)
`fromUserAccount`, then `tokenAmount` or `toUserAccount`. -/
def classifyTT (target : String) (acc : List (String × ℚ) × List (String × ℚ))
    (tt : TokenTransfer) : Except PyErr (List (String × ℚ) × List (String × ℚ)) :=
  match getItem tt.mint "mint" with
  | .error e => .error e
  | .ok mint =>
    if mint ∈ IGNORE_MINTS then .ok acc
    else
      match getItem tt.fromUserAccount "fromUserAccount" with
      | .error e => .error e
      | .ok fromA =>
        if fromA = target then
          match getItem tt.tokenAmount "tokenAmount" with
          | .error e => .error e
          | .ok amt => .ok (acc.1 ++ [(mint, amt)], acc.2)
        else
          match getItem tt.toUserAccount "toUserAccount" with
          | .error e => .error e
          | .ok toA =>
            if toA = target then
              match getItem tt.tokenAmount "tokenAmount" with
              | .error e => .error e
              | .ok amt => .ok (acc.1, acc.2 ++ [(mint, amt)])
            else .ok acc

/-- The token-transfer loop of `parse_tx`. -/
def collectTokenFlows (target : String) :
    List TokenTransfer → List (String × ℚ) × List (String × ℚ) →
    Except PyErr (List (String × ℚ) × List (String × ℚ))
  | [], acc => .ok acc
  | tt :: rest, acc =>
    match classifyTT target acc tt with
    | .error e => .error e
    | .ok acc' => collectTokenFlows target rest acc'

/-- Body of the native-transfer loop of `parse_tx`, for one entry. -/
def nativeStep (target : String) (sc : ℤ) (nt : NativeTransfer) : Except PyErr ℤ :=
  match getItem nt.fromUserAccount "fromUserAccount" with
  | .error e => .error e
  | .ok fromA =>
    if fromA = target then
      match getItem nt.amount "amount" with
      | .error e => .error e
      | .ok a => .ok (sc - a)
    else
      match getItem nt.toUserAccount "toUserAccount" with
      | .error e => .error e
      | .ok toA =>
        if toA = target then
          match getItem nt.amount "amount" with
          | .error e => .error e
          | .ok a => .ok (sc + a)
        else .ok sc

/-- The native-transfer loop of `parse_tx`, accumulating `sol_change`. -/
def solChange (target : String) : List NativeTransfer → ℤ → Except PyErr ℤ
  | [], sc => .ok sc
  | nt :: rest, sc =>
    match nativeStep target sc nt with
    | .error e => .error e
    | .ok sc' => solChange target rest sc'

/-- `parse_tx` of monitor.py.  `Option TxData` embeds the `if not tx_data`
guard (`none` is Python `None`); `.error` embeds an uncaught `KeyError`. -/
def parse_tx (tx_data : Option TxData) (target : String) :
    Except PyErr (Option TradeInfo) :=
  match tx_data with
  | none => .ok none
  | some td =>
    match collectTokenFlows target (td.tokenTransfers.getD []) ([], []) with
    | .error e => .error e
    | .ok flows =>
      match solChange target (td.nativeTransfers.getD []) 0 with
      | .error e => .error e
      | .ok sc =>
        let spent : ℚ := if sc < 0 then ((-sc : ℤ) : ℚ) / 10 ^ 9 else 0
        match flows.2 with
        | (m, amt) :: _ => .ok (some ⟨"BUY", some m, amt, spent⟩)
        | [] =>
          match flows.1 with
          | (m, amt) :: _ => .ok (some ⟨"SELL", some m, amt, spent⟩)
          | [] => .ok (some ⟨"UNKNOWN", none, 0, spent⟩)

/-! ## Position ledger (core/portfolio.py) -/

/-- One `self.portfolio[mint]` entry. -/
structure Position where
  my_balance : ℤ
  cost_sol : ℚ
deriving DecidableEq, Repr

/-- One `self.trade_history` record.  `time` is the parse result of the
`"%Y-%m-%d %H:%M:%S"` timestamp (`none` = malformed, `strptime` raises);
a missing `token`/`action` key behaves like the empty string. -/
structure TradeRecord where
  time : Option ℤ
  action : String
  token : String
  amount : ℤ
  value_sol : ℚ
deriving DecidableEq, Repr

/-- The mutable state of `PortfolioManager`: the holdings dict, the
append-only history list, the buy-count cache, and a counter of synchronous
persistence writes (`_save_portfolio` / `_save_history`). -/
structure PMState where
  portfolio : String → Option Position
  trade_history : List TradeRecord
  buy_counts_cache : String → ℕ
  saves : ℕ

/-- Python `d[k] = v` on the portfolio dict. -/
def pset (pf : String → Option Position) (k : String) (v : Position) :
    String → Option Position :=
  fun m => if m = k then some v else pf m

/-- Python `del d[k]` on the portfolio dict. -/
def pdel (pf : String → Option Position) (k : String) :
    String → Option Position :=
  fun m => if m = k then none else pf m

/-- `cache[k] = cache.get(k, 0) + 1`. -/
def bump (c : String → ℕ) (k : String) : String → ℕ :=
  fun m => if m = k then c m + 1 else c m

/-- A fresh manager before any data is loaded. -/
def initialState : PMState :=
  { portfolio := fun _ => none
  , trade_history := []
  , buy_counts_cache := fun _ => 0
  , saves := 0 }

/-- Number of records in `h` with action `BUY` and token `m`. -/
def countBuys (h : List TradeRecord) (m : String) : ℕ :=
  h.countP (fun r => r.action == "BUY" && r.token == m)

/-- The loop of `_rebuild_buy_counts_cache`: records whose `token` is falsy
(missing or empty) are skipped by the `if token:` guard. -/
def rebuildAux (c : String → ℕ) : List TradeRecord → (String → ℕ)
  | [] => c
  | r :: rest =>
    rebuildAux (if r.action = "BUY" ∧ r.token ≠ "" then bump c r.token else c) rest

/-- `_rebuild_buy_counts_cache` applied to a trade history. -/
def rebuild_buy_counts_cache (h : List TradeRecord) : String → ℕ :=
  rebuildAux (fun _ => 0) h

/-- The manager state right after `__init__`: load the persisted portfolio
and history, then rebuild the buy-count cache from the history. -/
def startupState (p0 : String → Option Position) (h0 : List TradeRecord) : PMState :=
  { portfolio := p0
  , trade_history := h0
  , buy_counts_cache := rebuild_buy_counts_cache h0
  , saves := 0 }

/-- `add_position`: create-or-increment the position, bump the buy-count
cache, save the portfolio, and append (and save) a `BUY` record. -/
def add_position (st : PMState) (token_mint : String) (amount_bought : ℤ)
    (cost_sol : ℚ) (now : ℤ) : PMState :=
  let p := (st.portfolio token_mint).getD ⟨0, 0⟩
  { portfolio := pset st.portfolio token_mint
      ⟨p.my_balance + amount_bought, p.cost_sol + cost_sol⟩
  , trade_history := st.trade_history ++
      [⟨some now, "BUY", token_mint, amount_bought, cost_sol⟩]
  , buy_counts_cache := bump st.buy_counts_cache token_mint
  , saves := st.saves + 2 }

/-- `get_buy_counts`: `self.buy_counts_cache.get(token_mint, 0)`. -/
def get_buy_counts (st : PMState) (token_mint : String) : ℕ :=
  st.buy_counts_cache token_mint

/-- Python `int(q)` (truncation toward zero). -/
def pyInt (q : ℚ) : ℤ :=
  if 0 ≤ q then ⌊q⌋ else ⌈q⌉

/-- The `sell_ratio` computation of `execute_proportional_sell`:
start from `1.0`; when `total_before_sell > 0` take the raw quotient and
clamp anything above `0.99` to exactly `1.0`. -/
def sell_ratio (smart_money_sold_amt smart_money_remaining : ℚ) : ℚ :=
  let total_before_sell := smart_money_sold_amt + smart_money_remaining
  if 0 < total_before_sell then
    let r := smart_money_sold_amt / total_before_sell
    if 99 / 100 < r then 1 else r
  else 1

/-- `execute_proportional_sell`.  The external results are parameters:
`smart_money_remaining` is the awaited `get_token_balance`, and
`(success, est_sol_out)` is the awaited `execute_swap` result. -/
def execute_proportional_sell (st : PMState) (token_mint : String)
    (smart_money_sold_amt smart_money_remaining : ℚ)
    (success : Bool) (est_sol_out : ℚ) (now : ℤ) : PMState :=
  match st.portfolio token_mint with
  | none => st
  | some p =>
    if p.my_balance ≤ 0 then st
    else
      let ratio := sell_ratio smart_money_sold_amt smart_money_remaining
      let amount_to_sell := pyInt ((p.my_balance : ℚ) * ratio)
      if amount_to_sell < 100 then st
      else if success then
        let bal' := p.my_balance - amount_to_sell
        let pf' :=
          if bal' < 100 then pdel st.portfolio token_mint
          else pset st.portfolio token_mint ⟨bal', p.cost_sol⟩
        { portfolio := pf'
        , trade_history := st.trade_history ++
            [⟨some now, "SELL", token_mint, amount_to_sell, est_sol_out⟩]
        , buy_counts_cache := st.buy_counts_cache
        , saves := st.saves + 2 }
      else st

/-- `force_sell_all`: on swap success delete the position (if held), save, and
append a `SELL_FORCE` record; on failure do nothing. -/
def force_sell_all (st : PMState) (token_mint : String) (amount : ℤ)
    (success : Bool) (est_sol_out : ℚ) (now : ℤ) : PMState :=
  if success then
    { portfolio := pdel st.portfolio token_mint
    , trade_history := st.trade_history ++
        [⟨some now, "SELL_FORCE", token_mint, amount, est_sol_out⟩]
    , buy_counts_cache := st.buy_counts_cache
    , saves := st.saves + 2 }
  else st

/-- One ledger mutation, with every awaited external result made explicit. -/
inductive PMOp where
  | add (mint : String) (amount : ℤ) (cost : ℚ) (now : ℤ)
  | propSell (mint : String) (sold remaining : ℚ) (success : Bool)
      (estOut : ℚ) (now : ℤ)
  | forceSell (mint : String) (amount : ℤ) (success : Bool)
      (estOut : ℚ) (now : ℤ)

/-- Dispatch one operation against the ledger. -/
def applyOp (st : PMState) : PMOp → PMState
  | .add mint amount cost now => add_position st mint amount cost now
  | .propSell mint sold remaining success estOut now =>
    execute_proportional_sell st mint sold remaining success estOut now
  | .forceSell mint amount success estOut now =>
    force_sell_all st mint amount success estOut now

/-- Run a sequence of ledger operations. -/
def applyOps (st : PMState) (ops : List PMOp) : PMState :=
  ops.foldl applyOp st

/-- `True` unless the operation is an `add_position` with a non-positive
bought amount. -/
def addAmountPos : PMOp → Bool
  | .add _ amount _ _ => decide (0 < amount)
  | _ => true

/-! ## Trader balance lookup (services/solana/trader.py) -/

/-- The wrapped-SOL mint (`SolanaTrader.SOL_MINT`). -/
def SOL_MINT : String := "So11111111111111111111111111111111111111112"

/-- `get_token_balance_raw`.  The RPC interaction is abstracted as
`rpc : Except Unit (Option ℤ)`: `.error` is any raised exception (caught by
the function's `try`), `.ok none` is "no token accounts for this owner/mint",
and `.ok (some amt)` is a fetched raw amount.  The source returns `None` for
the native SOL mint, `0` when no account exists, the raw integer amount on
success, and `None` whenever an exception was caught. -/
def get_token_balance_raw (token_mint : String) (rpc : Except Unit (Option ℤ)) :
    Option ℤ :=
  if token_mint = SOL_MINT then none
  else
    match rpc with
    | .error _ => none
    | .ok none => some 0
    | .ok (some amt) => some amt

/-! ## Anti-disconnect monitor (core/portfolio.py, monitor_sync_positions) -/

/-- The per-mint `should_sell` decision of `monitor_sync_positions`.
`raw` is the awaited `get_token_balance_raw` result; `quoteFn` gives the
awaited Jupiter quote (`outAmount`) for a raw amount.  Python's
`sm_amount_raw == 0` is `False` when the lookup returned `None`, and the
subsequent `get_quote(..., None)` raises inside `get_quote`'s `try`, which
returns `None`, so no dust-value check happens either. -/
def monitor_sync_should_sell (raw : Option ℤ) (quoteFn : ℤ → Option ℤ) : Bool :=
  match raw with
  | none => false
  | some a =>
    if a = 0 then true
    else
      match quoteFn a with
      | none => false
      | some outAmount => decide ((outAmount : ℚ) / 10 ^ 9 < 5 / 100)

/-- One held-mint iteration of the `monitor_sync_positions` loop: when
`should_sell` holds, force-liquidate the full position. -/
def monitor_sync_step (st : PMState) (token_mint : String) (raw : Option ℤ)
    (quoteFn : ℤ → Option ℤ) (success : Bool) (est_sol_out : ℚ) (now : ℤ) :
    PMState :=
  match st.portfolio token_mint with
  | none => st
  | some p =>
    if p.my_balance ≤ 0 then st
    else if monitor_sync_should_sell raw quoteFn then
      force_sell_all st token_mint p.my_balance success est_sol_out now
    else st

/-! ## Profit-taking monitor (core/portfolio.py, monitor_1000x_profit) -/

/-- `TAKE_PROFIT_ROI` from the configuration (main.py: `10.0`). -/
def TAKE_PROFIT_ROI : ℚ := 10

/-- The ROI computation of `monitor_1000x_profit`:
`roi = (curr_val / cost) - 1 if cost > 0 else 0` with
`curr_val = int(quote['outAmount'])` (raw base units). -/
def monitor_roi (curr_val : ℤ) (cost : ℚ) : ℚ :=
  if 0 < cost then (curr_val : ℚ) / cost - 1 else 0

/-- One held-mint iteration of the `monitor_1000x_profit` loop: quote the full
balance, compute the ROI, and force-liquidate when it reaches the threshold. -/
def monitor_1000x_step (st : PMState) (token_mint : String) (quote : Option ℤ)
    (success : Bool) (est_sol_out : ℚ) (now : ℤ) : PMState :=
  match st.portfolio token_mint with
  | none => st
  | some p =>
    if p.my_balance ≤ 0 then st
    else
      match quote with
      | none => st
      | some outAmount =>
        if TAKE_PROFIT_ROI ≤ monitor_roi outAmount p.cost_sol then
          force_sell_all st token_mint p.my_balance success est_sol_out now
        else st

/-! ## Daily report replay (core/portfolio.py, send_daily_summary) -/

/-- Dust-cost threshold for the win-rate statistics (`0.01`). -/
def COST_THRESHOLD_FOR_WINRATE : ℚ := 1 / 100

/-- Python `'SELL' in s` (substring containment). -/
def containsSELL (s : String) : Bool :=
  s.data.tails.any (fun t => "SELL".data.isPrefixOf t)

/-- Accumulator of the `send_daily_summary` replay loop. -/
structure ReplayState where
  temp_holdings : String → ℚ
  temp_costs : String → ℚ
  daily_profit_sol : ℚ
  total_realized_profit_sol : ℚ
  daily_wins : ℕ
  daily_losses : ℕ
  total_wins : ℕ
  total_losses : ℕ

/-- The empty replay accumulator. -/
def replayInit : ReplayState :=
  { temp_holdings := fun _ => 0
  , temp_costs := fun _ => 0
  , daily_profit_sol := 0
  , total_realized_profit_sol := 0
  , daily_wins := 0
  , daily_losses := 0
  , total_wins := 0
  , total_losses := 0 }

/-- One iteration of the replay loop over the trade history.  `yesterday` is
the `datetime.now() - timedelta(days=1)` cutoff; a record whose timestamp
fails to parse (`time = none`) is skipped entirely (`except: continue`). -/
def replay_step (yesterday : ℤ) (s : ReplayState) (r : TradeRecord) : ReplayState :=
  match r.time with
  | none => s
  | some t =>
    if r.action = "BUY" then
      { s with
        temp_holdings := fun m =>
          if m = r.token then s.temp_holdings m + (r.amount : ℚ) else s.temp_holdings m
      , temp_costs := fun m =>
          if m = r.token then s.temp_costs m + r.value_sol else s.temp_costs m }
    else if containsSELL r.action then
      let current_holding := s.temp_holdings r.token
      let total_cost := s.temp_costs r.token
      if 0 < current_holding then
        let avg_price := total_cost / current_holding
        let cost_of_this_sell := avg_price * (r.amount : ℚ)
        let pnl := r.value_sol - cost_of_this_sell
        let is_today := yesterday ≤ t
        let counted := COST_THRESHOLD_FOR_WINRATE < cost_of_this_sell
        { temp_holdings := fun m =>
            if m = r.token then max 0 (current_holding - (r.amount : ℚ))
            else s.temp_holdings m
        , temp_costs := fun m =>
            if m = r.token then max 0 (total_cost - cost_of_this_sell)
            else s.temp_costs m
        , daily_profit_sol :=
            if is_today then s.daily_profit_sol + pnl else s.daily_profit_sol
        , total_realized_profit_sol := s.total_realized_profit_sol + pnl
        , daily_wins :=
            if counted ∧ 0 < pnl ∧ is_today then s.daily_wins + 1 else s.daily_wins
        , daily_losses :=
            if counted ∧ ¬ 0 < pnl ∧ is_today then s.daily_losses + 1 else s.daily_losses
        , total_wins :=
            if counted ∧ 0 < pnl then s.total_wins + 1 else s.total_wins
        , total_losses :=
            if counted ∧ ¬ 0 < pnl then s.total_losses + 1 else s.total_losses }
      else s
    else s

/-- The whole replay over a trade history. -/
def replay (yesterday : ℤ) (h : List TradeRecord) : ReplayState :=
  h.foldl (replay_step yesterday) replayInit

/-! ## Copy-execution controller, BUY path -/

/-- An external call issued by the BUY path. -/
inductive ExtCall where
  | riskScreen
  | balanceCheck
  | swap
deriving DecidableEq, Repr

/-- Modelled from the spec: the copy-execution controller's BUY path.  The
controller that wires `core/portfolio.PortfolioManager` into the event loop is
missing from the sources — `get_buy_counts` has a declaration in
core/portfolio.py but no caller — so the gate sequence follows the spec's
words: gates are (a) external risk-screen pass, (b) buy-count for the mint
below 3, (c) own liquid balance at least twice the fixed copy amount; all
gates must pass and the first failing gate aborts with no position change, and
a BUY attempt for a mint that already has 3 recorded BUY records is rejected
before any external call is made (so the local buy-count gate is evaluated
first).  On success the filled amount and the spent copy amount are booked
through `add_position`.  The returned list records the external calls issued,
in order. -/
def buy_path (st : PMState) (token_mint : String) (riskPass : Bool)
    (balance copyAmt : ℚ) (swapSuccess : Bool) (filled : ℤ) (now : ℤ) :
    PMState × List ExtCall :=
  if get_buy_counts st token_mint < 3 then
    if riskPass then
      if 2 * copyAmt ≤ balance then
        if swapSuccess then
          (add_position st token_mint filled copyAmt now,
            [.riskScreen, .balanceCheck, .swap])
        else (st, [.riskScreen, .balanceCheck, .swap])
      else (st, [.riskScreen, .balanceCheck])
    else (st, [.riskScreen])
  else (st, [])

/-! ## Theorems -/

/-- C5: whenever the external `execute_swap` call reports failure
(`success = false`), `execute_proportional_sell` and `force_sell_all` leave
the ledger entirely unchanged: no balance decrement, no position deletion, no
Trade Record appended, and no persistence write occurs. -/
theorem C5_swap_failure_leaves_ledger_unchanged :
    ∀ (st : PMState) (token_mint : String) (sold remaining est : ℚ)
      (amount now : ℤ),
      execute_proportional_sell st token_mint sold remaining false est now = st ∧
      force_sell_all st token_mint amount false est now = st := by
  intro st token_mint sold remaining est amount now
  constructor
  · unfold execute_proportional_sell
    cases st.portfolio token_mint with
    | none => rfl
    | some p =>
      dsimp only
      split_ifs <;> first | rfl | contradiction
  · rfl

/-- C6: the proportional sell ratio computed from the target's sold amount and
remaining balance (both non-negative) always lies in `[0, 1]`; a raw ratio of
`0.995` is clamped to exactly `1.0`, a raw ratio of `0.85` stays `0.85`, and
when sold amount plus remaining balance is zero the ratio defaults to `1.0`. -/
theorem C6_sell_ratio_clamped (sold remaining : ℚ)
    (h1 : 0 ≤ sold) (h2 : 0 ≤ remaining) :
    (0 ≤ sell_ratio sold remaining ∧ sell_ratio sold remaining ≤ 1) ∧
    sell_ratio 995 5 = 1 ∧ sell_ratio 85 15 = 85 / 100 ∧ sell_ratio 0 0 = 1 := by
  refine ⟨?_, by norm_num [sell_ratio], by norm_num [sell_ratio],
    by norm_num [sell_ratio]⟩
  simp only [sell_ratio]
  split_ifs with htot hr
  · exact ⟨zero_le_one, le_refl 1⟩
  · refine ⟨div_nonneg h1 htot.le, ?_⟩
    rw [div_le_one htot]
    linarith
  · exact ⟨zero_le_one, le_refl 1⟩

/-- Witness for C6 at concrete inputs. -/
theorem C6_witness :
    (0 ≤ sell_ratio 1 3 ∧ sell_ratio 1 3 ≤ 1) ∧
    sell_ratio 995 5 = 1 ∧ sell_ratio 85 15 = 85 / 100 ∧ sell_ratio 0 0 = 1 :=
  C6_sell_ratio_clamped 1 3 (by norm_num) (by norm_num)

/-- C10: a failed lookup of the target's raw balance yields `none` rather than
`0` (`get_token_balance_raw` returns `None` on any internal error and for the
native SOL mint), `none` does not satisfy the zero-balance test, and a
balance-fetch failure alone never makes the anti-disconnect monitor
force-liquidate the bot's position. -/
theorem C10_balance_fetch_failure_no_liquidation :
    (∀ rpc : Except Unit (Option ℤ), get_token_balance_raw SOL_MINT rpc = none) ∧
    (∀ token_mint : String,
      get_token_balance_raw token_mint (.error ()) = none) ∧
    (∀ quoteFn : ℤ → Option ℤ, monitor_sync_should_sell none quoteFn = false) ∧
    (∀ (st : PMState) (token_mint : String) (quoteFn : ℤ → Option ℤ)
       (success : Bool) (est : ℚ) (now : ℤ),
       monitor_sync_step st token_mint none quoteFn success est now = st) := by
  refine ⟨fun rpc => by simp [get_token_balance_raw],
          fun token_mint => ?_, fun quoteFn => rfl, ?_⟩
  · unfold get_token_balance_raw
    split_ifs <;> rfl
  · intro st token_mint quoteFn success est now
    unfold monitor_sync_step
    cases st.portfolio token_mint with
    | none => rfl
    | some p =>
      dsimp only
      split_ifs with hbal hsell
      · rfl
      · exact absurd hsell (by simp [monitor_sync_should_sell])
      · rfl

/-- C1 (spec-modelled BUY path): for every mint that already has 3 recorded
BUY Trade Records, a further BUY trade event is rejected before any external
call (risk screen, quote, swap) is made, and no position change occurs. -/
theorem C1_buy_count_gate (st : PMState) (token_mint : String) (riskPass : Bool)
    (balance copyAmt : ℚ) (swapSuccess : Bool) (filled now : ℤ)
    (h : get_buy_counts st token_mint = 3) :
    buy_path st token_mint riskPass balance copyAmt swapSuccess filled now
      = (st, []) := by
  unfold buy_path
  rw [h]
  simp

/-- Witness for C1: a ledger holding exactly 3 recorded BUYs for mint `M`. -/
theorem C1_witness :
    buy_path (applyOps initialState
        [.add "M" 5 1 0, .add "M" 5 1 0, .add "M" 5 1 0])
      "M" true 10 1 true 5 0
      = (applyOps initialState
          [.add "M" 5 1 0, .add "M" 5 1 0, .add "M" 5 1 0], []) :=
  C1_buy_count_gate _ _ _ _ _ _ _ _ (by decide)

/-- C7 counterexample: with `cost = 2.0` and a quoted `outAmount` of
`40000000000` raw units, the profit monitor's computed ROI is
`19999999999`, not `19` — the quoted value is used in raw base units, without
the `10^9` conversion the claim's "40 SOL-equivalent" reading assumes. -/
theorem C7_counterexample :
    monitor_roi 40000000000 2 = 19999999999 ∧
    monitor_roi 40000000000 2 ≠ 19 := by
  constructor <;> norm_num [monitor_roi]

/-- C7 amended: the monitor computes ROI as `quoted_out_amount / cost − 1`
with the quoted amount in raw base units; at `cost = 2.0` and
`outAmount = 40000000000` the computed ROI is `19999999999`, which is ≥ the
10× threshold, so the full position is force-liquidated (on swap success the
position is removed and one `SELL_FORCE` record for the full quantity is
appended). -/
theorem C7_roi_raw_units (curr_val : ℤ) (cost : ℚ) (h : 0 < cost) :
    monitor_roi curr_val cost = (curr_val : ℚ) / cost - 1 ∧
    monitor_roi 40000000000 2 = 19999999999 ∧
    TAKE_PROFIT_ROI ≤ monitor_roi 40000000000 2 ∧
    (monitor_1000x_step
        ⟨fun m => if m = "M" then some ⟨1000, 2⟩ else none, [], fun _ => 0, 0⟩
        "M" (some 40000000000) true 40 7).portfolio "M" = none ∧
    (monitor_1000x_step
        ⟨fun m => if m = "M" then some ⟨1000, 2⟩ else none, [], fun _ => 0, 0⟩
        "M" (some 40000000000) true 40 7).trade_history
      = [⟨some 7, "SELL_FORCE", "M", 1000, 40⟩] := by
  have hroi : monitor_roi 40000000000 2 = 19999999999 := by
    norm_num [monitor_roi]
  have hstep :
      monitor_1000x_step
        ⟨fun m => if m = "M" then some ⟨1000, 2⟩ else none, [], fun _ => 0, 0⟩
        "M" (some 40000000000) true 40 7
      = force_sell_all
          ⟨fun m => if m = "M" then some ⟨1000, 2⟩ else none, [], fun _ => 0, 0⟩
          "M" 1000 true 40 7 := by
    unfold monitor_1000x_step
    norm_num [hroi, TAKE_PROFIT_ROI]
  refine ⟨?_, hroi, by norm_num [hroi, TAKE_PROFIT_ROI], ?_, ?_⟩
  · unfold monitor_roi
    rw [if_pos h]
  · rw [hstep]
    simp [force_sell_all, pdel]
  · rw [hstep]
    simp [force_sell_all]

/-- Witness for C7 at a concrete positive cost. -/
theorem C7_witness : monitor_roi 4 2 = (4 : ℚ) / 2 - 1 :=
  (C7_roi_raw_units 4 2 (by norm_num)).1

/-! ### C4: ledger balance invariant -/

/-- Every stored position has a strictly positive balance. -/
def posInv (st : PMState) : Prop :=
  ∀ m p, st.portfolio m = some p → 0 < p.my_balance

theorem posInv_initial : posInv initialState := by
  intro m p hm
  simp [initialState] at hm

theorem posInv_add (st : PMState) (mint : String) (a : ℤ) (c : ℚ) (now : ℤ)
    (hInv : posInv st) (ha : 0 < a) : posInv (add_position st mint a c now) := by
  intro m p hm
  simp only [add_position, pset] at hm
  by_cases hmm : m = mint
  · rw [if_pos hmm] at hm
    cases hm
    rcases hpf : st.portfolio mint with _ | q
    · simp [hpf]
      omega
    · simp [hpf]
      have := hInv mint q hpf
      omega
  · rw [if_neg hmm] at hm
    exact hInv m p hm

theorem posInv_propSell (st : PMState) (mint : String) (sold rem : ℚ)
    (succ : Bool) (est : ℚ) (now : ℤ) (hInv : posInv st) :
    posInv (execute_proportional_sell st mint sold rem succ est now) := by
  intro m p hm
  rcases hpf : st.portfolio mint with _ | q
  · simp only [execute_proportional_sell, hpf] at hm
    exact hInv m p hm
  · by_cases h1 : q.my_balance ≤ 0
    · simp only [execute_proportional_sell, hpf, if_pos h1] at hm
      exact hInv m p hm
    · by_cases h2 : pyInt ((q.my_balance : ℚ) * sell_ratio sold rem) < 100
      · simp only [execute_proportional_sell, hpf, if_neg h1, if_pos h2] at hm
        exact hInv m p hm
      · cases succ with
        | false =>
          simp only [execute_proportional_sell, hpf, if_neg h1, if_neg h2,
            Bool.false_eq_true, if_false] at hm
          exact hInv m p hm
        | true =>
          by_cases h3 :
              q.my_balance - pyInt ((q.my_balance : ℚ) * sell_ratio sold rem) < 100
          · simp only [execute_proportional_sell, hpf, if_neg h1, if_neg h2,
              if_true, if_pos h3, pdel] at hm
            by_cases h4 : m = mint
            · rw [if_pos h4] at hm
              cases hm
            · rw [if_neg h4] at hm
              exact hInv m p hm
          · simp only [execute_proportional_sell, hpf, if_neg h1, if_neg h2,
              if_true, if_neg h3, pset] at hm
            by_cases h4 : m = mint
            · rw [if_pos h4] at hm
              cases hm
              simp only
              omega
            · rw [if_neg h4] at hm
              exact hInv m p hm

theorem posInv_forceSell (st : PMState) (mint : String) (a : ℤ) (succ : Bool)
    (est : ℚ) (now : ℤ) (hInv : posInv st) :
    posInv (force_sell_all st mint a succ est now) := by
  intro m p hm
  cases succ with
  | false => exact hInv m p hm
  | true =>
    simp only [force_sell_all, if_true, pdel] at hm
    by_cases h4 : m = mint
    · rw [if_pos h4] at hm
      cases hm
    · rw [if_neg h4] at hm
      exact hInv m p hm

theorem posInv_applyOp (st : PMState) (op : PMOp) (hInv : posInv st)
    (ha : addAmountPos op = true) : posInv (applyOp st op) := by
  cases op with
  | add mint a c now =>
    simp only [addAmountPos, decide_eq_true_eq] at ha
    exact posInv_add st mint a c now hInv ha
  | propSell mint sold rem succ est now =>
    exact posInv_propSell st mint sold rem succ est now hInv
  | forceSell mint a succ est now =>
    exact posInv_forceSell st mint a succ est now hInv

theorem posInv_applyOps (ops : List PMOp) :
    ∀ st : PMState, posInv st → (∀ op ∈ ops, addAmountPos op = true) →
      posInv (applyOps st ops) := by
  induction ops with
  | nil => exact fun st h _ => h
  | cons op rest ih =>
    intro st h hops
    exact ih (applyOp st op)
      (posInv_applyOp st op h (hops op (by simp)))
      (fun o ho => hops o (by simp [ho]))

/-- C4 counterexample: the claim as stated fails — an `add_position` with a
zero bought amount completes and leaves a portfolio entry whose `my_balance`
is exactly `0` (`add_position` never applies the dust-floor deletion). -/
theorem C4_counterexample :
    (applyOps initialState [.add "A" 0 0 0]).portfolio "A" = some ⟨0, 0⟩ ∧
    (Position.mk 0 0).my_balance = 0 := by
  constructor
  · show (add_position initialState "A" 0 0 0).portfolio "A" = some ⟨0, 0⟩
    simp [add_position, pset, initialState]
  · rfl

/-- C4 amended: for all operation sequences in which every `add_position`
books a strictly positive amount, every stored position's `my_balance` stays
non-negative after each operation and no portfolio entry with `my_balance = 0`
remains after any operation completes (sell results below the 100-raw-unit
dust floor are deleted, never left at zero). -/
theorem C4_no_zero_positions (ops : List PMOp)
    (hadd : ∀ op ∈ ops, addAmountPos op = true) :
    ∀ m p, (applyOps initialState ops).portfolio m = some p →
      0 ≤ p.my_balance ∧ p.my_balance ≠ 0 := by
  intro m p hm
  have := posInv_applyOps ops initialState posInv_initial hadd m p hm
  omega

/-- Witness for C4 after one positive buy. -/
theorem C4_witness :
    0 ≤ (Position.mk 5 1).my_balance ∧ (Position.mk 5 1).my_balance ≠ 0 :=
  C4_no_zero_positions [.add "A" 5 1 0]
    (by
      intro op hop
      simp only [List.mem_singleton] at hop
      subst hop
      rfl)
    "A" ⟨5, 1⟩
    (by
      show (add_position initialState "A" 5 1 0).portfolio "A" = some ⟨5, 1⟩
      simp [add_position, pset, initialState])

/-! ### C9: buy-count cache coherence -/

/-- For every non-falsy mint the cache agrees with a recount of the log. -/
def cacheInv (st : PMState) : Prop :=
  ∀ m, m ≠ "" → st.buy_counts_cache m = countBuys st.trade_history m

theorem rebuildAux_apply (l : List TradeRecord) :
    ∀ (c : String → ℕ) (m : String), m ≠ "" →
      rebuildAux c l m = c m + countBuys l m := by
  induction l with
  | nil =>
    intro c m hm
    simp [rebuildAux, countBuys]
  | cons r rest ih =>
    intro c m hm
    simp only [rebuildAux]
    rw [ih _ m hm]
    unfold countBuys
    rw [List.countP_cons]
    by_cases hb : r.action = "BUY" ∧ r.token ≠ ""
    · rw [if_pos hb]
      unfold bump
      by_cases hmt : m = r.token
      · have : (r.action == "BUY" && r.token == m) = true := by
          simp [hb.1, hmt]
        rw [this, if_pos hmt]
        norm_num
        omega
      · have : (r.action == "BUY" && r.token == m) = false := by
          simp only [Bool.and_eq_false_iff, beq_eq_false_iff_ne]
          right
          exact fun h => hmt h.symm
        rw [this, if_neg hmt]
        norm_num
    · rw [if_neg hb]
      have : (r.action == "BUY" && r.token == m) = false := by
        rcases not_and_or.mp hb with h | h
        · simp only [Bool.and_eq_false_iff, beq_eq_false_iff_ne]
          left
          exact h
        · have htok : r.token = "" := not_not.mp h
          simp only [Bool.and_eq_false_iff, beq_eq_false_iff_ne]
          right
          rw [htok]
          exact fun h' => hm h'.symm
      rw [this]
      norm_num

theorem cacheInv_startup (p0 : String → Option Position) (h0 : List TradeRecord) :
    cacheInv (startupState p0 h0) := by
  intro m hm
  show rebuild_buy_counts_cache h0 m = countBuys h0 m
  unfold rebuild_buy_counts_cache
  rw [rebuildAux_apply h0 _ m hm]
  omega

theorem cacheInv_add (st : PMState) (mint : String) (a : ℤ) (c : ℚ) (now : ℤ)
    (hInv : cacheInv st) : cacheInv (add_position st mint a c now) := by
  intro m hm
  have hc := hInv m hm
  simp only [add_position, bump]
  unfold countBuys at hc ⊢
  rw [List.countP_append]
  simp only [List.countP_cons, List.countP_nil]
  by_cases hmt : m = mint
  · rw [if_pos hmt]
    have : (("BUY" : String) == "BUY" && mint == m) = true := by
      simp [hmt]
    rw [this]
    norm_num
    omega
  · rw [if_neg hmt]
    have : (("BUY" : String) == "BUY" && mint == m) = false := by
      simp only [Bool.and_eq_false_iff, beq_eq_false_iff_ne]
      right
      exact fun h => hmt h.symm
    rw [this]
    norm_num
    omega

theorem countBuys_append_sell (h : List TradeRecord) (r : TradeRecord)
    (hr : r.action ≠ "BUY") (m : String) :
    countBuys (h ++ [r]) m = countBuys h m := by
  unfold countBuys
  rw [List.countP_append]
  simp only [List.countP_cons, List.countP_nil]
  have : (r.action == "BUY" && r.token == m) = false := by
    simp only [Bool.and_eq_false_iff, beq_eq_false_iff_ne]
    left
    exact hr
  rw [this]
  norm_num

theorem cacheInv_propSell (st : PMState) (mint : String) (sold rem : ℚ)
    (succ : Bool) (est : ℚ) (now : ℤ) (hInv : cacheInv st) :
    cacheInv (execute_proportional_sell st mint sold rem succ est now) := by
  intro m hm
  have hc := hInv m hm
  rcases hpf : st.portfolio mint with _ | q
  · simpa only [execute_proportional_sell, hpf] using hc
  · by_cases h1 : q.my_balance ≤ 0
    · simpa only [execute_proportional_sell, hpf, if_pos h1] using hc
    · by_cases h2 : pyInt ((q.my_balance : ℚ) * sell_ratio sold rem) < 100
      · simpa only [execute_proportional_sell, hpf, if_neg h1, if_pos h2] using hc
      · cases succ with
        | false =>
          simpa only [execute_proportional_sell, hpf, if_neg h1, if_neg h2,
            Bool.false_eq_true, if_false] using hc
        | true =>
          simp only [execute_proportional_sell, hpf, if_neg h1, if_neg h2, if_true]
          rw [countBuys_append_sell st.trade_history
            ⟨some now, "SELL", mint,
              pyInt ((q.my_balance : ℚ) * sell_ratio sold rem), est⟩
            (by show ("SELL" : String) ≠ "BUY"; decide) m]
          exact hc

theorem cacheInv_forceSell (st : PMState) (mint : String) (a : ℤ) (succ : Bool)
    (est : ℚ) (now : ℤ) (hInv : cacheInv st) :
    cacheInv (force_sell_all st mint a succ est now) := by
  intro m hm
  have hc := hInv m hm
  cases succ with
  | false => exact hc
  | true =>
    simp only [force_sell_all, if_true]
    rw [countBuys_append_sell st.trade_history
      ⟨some now, "SELL_FORCE", mint, a, est⟩
      (by show ("SELL_FORCE" : String) ≠ "BUY"; decide) m]
    exact hc

theorem cacheInv_applyOps (ops : List PMOp) :
    ∀ st : PMState, cacheInv st → cacheInv (applyOps st ops) := by
  induction ops with
  | nil => exact fun st h => h
  | cons op rest ih =>
    intro st h
    refine ih (applyOp st op) ?_
    cases op with
    | add mint a c now => exact cacheInv_add st mint a c now h
    | propSell mint sold rem succ est now =>
      exact cacheInv_propSell st mint sold rem succ est now h
    | forceSell mint a succ est now =>
      exact cacheInv_forceSell st mint a succ est now h

/-- C9 counterexample: the claim as stated fails for a falsy mint string — a
persisted BUY record whose `token` is the empty string is skipped by the
`if token:` guard of `_rebuild_buy_counts_cache`, so right after startup the
cached count (`0`) differs from the recount over the log (`1`). -/
theorem C9_counterexample :
    get_buy_counts (startupState (fun _ => none) [⟨some 0, "BUY", "", 1, 0⟩]) "" = 0 ∧
    countBuys [⟨some 0, "BUY", "", 1, 0⟩] "" = 1 := by
  constructor
  · rfl
  · rfl

/-- C9 amended: for every non-empty mint `m`, after any sequence of ledger
operations following startup, `get_buy_counts m` equals the number of `BUY`
records for `m` in the trade history — the incrementally maintained cache
coincides with the startup rebuild, which skips records with a falsy token. -/
theorem C9_buy_counts_cache_coherent (p0 : String → Option Position)
    (h0 : List TradeRecord) (ops : List PMOp) (m : String) (hm : m ≠ "") :
    get_buy_counts (applyOps (startupState p0 h0) ops) m
      = countBuys (applyOps (startupState p0 h0) ops).trade_history m :=
  cacheInv_applyOps ops (startupState p0 h0) (cacheInv_startup p0 h0) m hm

/-- Witness for C9 after one buy from an empty startup state. -/
theorem C9_witness :
    get_buy_counts (applyOps (startupState (fun _ => none) []) [.add "A" 5 1 0]) "A"
      = countBuys (applyOps (startupState (fun _ => none) [])
          [.add "A" 5 1 0]).trade_history "A" :=
  C9_buy_counts_cache_coherent (fun _ => none) [] [.add "A" 5 1 0] "A" (by decide)

/-! ### C2: ambiguity handling of parse_tx -/

/-- C2 counterexample: the claim as stated fails — a record in which the
target receives two distinct non-ignored mints is classified `BUY` on the
first inbound transfer, not `UNKNOWN`. -/
theorem C2_counterexample :
    parse_tx
      (some ⟨some
        [ ⟨some "MintA", some "X", some "TGT", some 5⟩
        , ⟨some "MintB", some "X", some "TGT", some 7⟩ ], some []⟩) "TGT"
      = .ok (some ⟨"BUY", some "MintA", 5, 0⟩) ∧
    ("MintA" : String) ≠ "MintB" ∧ ("BUY" : String) ≠ "UNKNOWN" := by
  refine ⟨rfl, by decide, by decide⟩

/-- C2 amended: `parse_tx` yields `UNKNOWN` exactly when the target moved no
non-ignored token at all; whenever the token-flow scan found at least one
inbound (resp. outbound) non-ignored transfer, the event is classified `BUY`
(resp. `SELL`) on the *first* such transfer, even if several distinct mints
moved. -/
theorem C2_unknown_iff_no_flow (td : TxData) (target : String)
    (outs ins : List (String × ℚ)) (sc : ℤ)
    (hflows : collectTokenFlows target (td.tokenTransfers.getD []) ([], [])
      = .ok (outs, ins))
    (hsc : solChange target (td.nativeTransfers.getD []) 0 = .ok sc) :
    ∃ r, parse_tx (some td) target = .ok (some r) ∧
      (r.action = "UNKNOWN" ↔ outs = [] ∧ ins = []) ∧
      (∀ m amt rest, ins = (m, amt) :: rest →
        r.action = "BUY" ∧ r.token_address = some m ∧ r.amount = amt) ∧
      (∀ m amt rest, ins = [] → outs = (m, amt) :: rest →
        r.action = "SELL" ∧ r.token_address = some m ∧ r.amount = amt) := by
  simp only [parse_tx]
  rw [hflows, hsc]
  rcases ins with _ | ⟨⟨mi, ai⟩, restI⟩
  · rcases outs with _ | ⟨⟨mo, ao⟩, restO⟩
    · exact Exists.intro _ ⟨rfl, by simp, by simp, by simp⟩
    · refine Exists.intro _ ⟨rfl, by simp, by simp, ?_⟩
      intro m amt rest _ houts
      cases houts
      exact ⟨rfl, rfl, rfl⟩
  · refine Exists.intro _ ⟨rfl, by simp, ?_, by simp⟩
    intro m amt rest hins
    cases hins
    exact ⟨rfl, rfl, rfl⟩

/-- Witness for C2 on a record with a single inbound non-ignored transfer. -/
theorem C2_witness :
    ∃ r, parse_tx (some ⟨some [⟨some "T", some "X", some "W", some 3⟩], none⟩) "W"
        = .ok (some r) ∧
      (r.action = "UNKNOWN" ↔ ([] : List (String × ℚ)) = [] ∧
        ([(("T" : String), (3 : ℚ))] : List (String × ℚ)) = []) ∧
      (∀ m amt rest, ([(("T" : String), (3 : ℚ))] : List (String × ℚ))
          = (m, amt) :: rest →
        r.action = "BUY" ∧ r.token_address = some m ∧ r.amount = amt) ∧
      (∀ m amt rest, ([(("T" : String), (3 : ℚ))] : List (String × ℚ)) = [] →
        ([] : List (String × ℚ)) = (m, amt) :: rest →
        r.action = "SELL" ∧ r.token_address = some m ∧ r.amount = amt) :=
  C2_unknown_iff_no_flow
    ⟨some [⟨some "T", some "X", some "W", some 3⟩], none⟩ "W"
    [] [("T", 3)] 0 rfl rfl

/-! ### C3: totality of parse_tx -/

/-- C3 counterexample: the claim as stated fails — on a token-transfer entry
with a missing `mint` field, `parse_tx` raises `KeyError 'mint'` (the source
subscripts `tx['mint']` directly instead of defaulting). -/
theorem C3_counterexample :
    parse_tx (some ⟨some [⟨none, none, none, none⟩], some []⟩) "W"
      = .error (.keyError "mint") := rfl

/-- Transfer entries carrying every subscripted field. -/
def ttWellFormed (tt : TokenTransfer) : Prop :=
  tt.mint.isSome ∧ tt.fromUserAccount.isSome ∧
    tt.toUserAccount.isSome ∧ tt.tokenAmount.isSome

/-- Native entries carrying every subscripted field. -/
def ntWellFormed (nt : NativeTransfer) : Prop :=
  nt.fromUserAccount.isSome ∧ nt.toUserAccount.isSome ∧ nt.amount.isSome

theorem classifyTT_total (target : String)
    (acc : List (String × ℚ) × List (String × ℚ)) (tt : TokenTransfer)
    (h : ttWellFormed tt) : ∃ acc', classifyTT target acc tt = .ok acc' := by
  obtain ⟨hm, hf, ht, ha⟩ := h
  rcases tt with ⟨_ | mint, _ | fromA, _ | toA, _ | amt⟩ <;>
    simp_all [Option.isSome] <;>
    unfold classifyTT getItem <;>
    dsimp only <;>
    split_ifs <;>
    exact ⟨_, _, rfl⟩

theorem collectTokenFlows_total (target : String) (l : List TokenTransfer)
    (h : ∀ tt ∈ l, ttWellFormed tt) :
    ∀ acc, ∃ out, collectTokenFlows target l acc = .ok out := by
  induction l with
  | nil => exact fun acc => ⟨acc, rfl⟩
  | cons tt rest ih =>
    intro acc
    obtain ⟨acc', hacc⟩ := classifyTT_total target acc tt (h tt (by simp))
    have := ih (fun tt' htt' => h tt' (by simp [htt'])) acc'
    simpa [collectTokenFlows, hacc] using this

theorem nativeStep_total (target : String) (sc : ℤ) (nt : NativeTransfer)
    (h : ntWellFormed nt) : ∃ sc', nativeStep target sc nt = .ok sc' := by
  obtain ⟨hf, ht, ha⟩ := h
  rcases nt with ⟨_ | fromA, _ | toA, _ | amt⟩ <;>
    simp_all [Option.isSome] <;>
    unfold nativeStep getItem <;>
    dsimp only <;>
    split_ifs <;>
    exact Exists.intro _ rfl

theorem solChange_total (target : String) (l : List NativeTransfer)
    (h : ∀ nt ∈ l, ntWellFormed nt) :
    ∀ sc : ℤ, ∃ sc', solChange target l sc = .ok sc' := by
  induction l with
  | nil => exact fun sc => ⟨sc, rfl⟩
  | cons nt rest ih =>
    intro sc
    obtain ⟨sc', hsc⟩ := nativeStep_total target sc nt (h nt (by simp))
    have := ih (fun nt' hnt' => h nt' (by simp [hnt'])) sc'
    simpa [solChange, hsc] using this

/-- C3 amended: `parse_tx` is a pure function (hence deterministic), treats a
missing record as `None` and missing top-level transfer lists as empty, but it
is total only on records whose transfer entries carry every subscripted field
(`mint`, `fromUserAccount`, `toUserAccount`, `tokenAmount`, `amount`); an
entry with such a field missing raises a `KeyError` instead of defaulting. -/
theorem C3_parse_total_on_wellformed (td : TxData) (target : String)
    (h1 : ∀ tt ∈ td.tokenTransfers.getD [], ttWellFormed tt)
    (h2 : ∀ nt ∈ td.nativeTransfers.getD [], ntWellFormed nt) :
    (∃ r, parse_tx (some td) target = .ok r) ∧
    parse_tx none target = .ok none := by
  refine ⟨?_, rfl⟩
  obtain ⟨⟨outs, ins⟩, hflows⟩ :=
    collectTokenFlows_total target (td.tokenTransfers.getD []) h1 ([], [])
  obtain ⟨sc, hsc⟩ := solChange_total target (td.nativeTransfers.getD []) h2 0
  simp only [parse_tx]
  rw [hflows, hsc]
  rcases ins with _ | ⟨⟨mi, ai⟩, restI⟩
  · rcases outs with _ | ⟨⟨mo, ao⟩, restO⟩ <;> exact Exists.intro _ rfl
  · exact Exists.intro _ rfl

/-- Witness for C3 on a fully populated record. -/
theorem C3_witness :
    (∃ r, parse_tx
        (some ⟨some [⟨some "T", some "W", some "X", some 2⟩],
               some [⟨some "W", some "X", some 4⟩]⟩) "W" = .ok r) ∧
    parse_tx none "W" = .ok none :=
  C3_parse_total_on_wellformed
    ⟨some [⟨some "T", some "W", some "X", some 2⟩],
     some [⟨some "W", some "X", some 4⟩]⟩ "W"
    (by
      intro tt htt
      simp only [Option.getD, List.mem_singleton] at htt
      subst htt
      exact ⟨rfl, rfl, rfl, rfl⟩)
    (by
      intro nt hnt
      simp only [Option.getD, List.mem_singleton] at hnt
      subst hnt
      exact ⟨rfl, rfl, rfl⟩)

/-! ### C8: dust filtering in the daily-report replay -/

/-- C8: in the daily-report replay, a closing (SELL-kind) trade whose
attributed weighted-average cost (`cost_of_this_sell = 0.005`) is below the
`0.01` dust-cost threshold increments neither the win counter nor the loss
counter, but its P&L (`value_sol` minus `cost_of_this_sell`) is still added
to realized total profit, and to daily profit when the trade is from today. -/
theorem C8_dust_sell_excluded_from_winrate (yesterday : ℤ) (s : ReplayState)
    (r : TradeRecord) (t : ℤ)
    (htime : r.time = some t)
    (hact : r.action = "SELL")
    (hhold : 0 < s.temp_holdings r.token)
    (hcost : s.temp_costs r.token / s.temp_holdings r.token * (r.amount : ℚ)
      = 1 / 200) :
    (replay_step yesterday s r).total_wins = s.total_wins ∧
    (replay_step yesterday s r).total_losses = s.total_losses ∧
    (replay_step yesterday s r).daily_wins = s.daily_wins ∧
    (replay_step yesterday s r).daily_losses = s.daily_losses ∧
    (replay_step yesterday s r).total_realized_profit_sol
      = s.total_realized_profit_sol + (r.value_sol - 1 / 200) ∧
    (yesterday ≤ t →
      (replay_step yesterday s r).daily_profit_sol
        = s.daily_profit_sol + (r.value_sol - 1 / 200)) := by
  have hsell : containsSELL r.action = true := by
    rw [hact]
    decide
  have hnb : ¬ r.action = "BUY" := by
    rw [hact]
    decide
  have hfalse : ¬ (COST_THRESHOLD_FOR_WINRATE < (1 : ℚ) / 200) := by
    norm_num [COST_THRESHOLD_FOR_WINRATE]
  have hcfalse : ∀ P : Prop,
      ((COST_THRESHOLD_FOR_WINRATE < (1 : ℚ) / 200) ∧ P) = False :=
    fun P => eq_false fun hc => hfalse hc.1
  simp only [replay_step, htime, hsell, if_neg hnb, if_pos hhold, if_true,
    hcost, hcfalse, if_false]
  refine ⟨trivial, trivial, trivial, trivial, trivial, fun hT => ?_⟩
  rw [if_pos hT]

/-- Witness for C8: one concrete dust-cost sell. -/
theorem C8_witness :
    (replay_step 0
        ⟨fun m => if m = "T" then 1 else 0,
          fun m => if m = "T" then 1 / 200 else 0, 0, 0, 0, 0, 0, 0⟩
        ⟨some 5, "SELL", "T", 1, 1⟩).total_wins = 0 ∧
    (replay_step 0
        ⟨fun m => if m = "T" then 1 else 0,
          fun m => if m = "T" then 1 / 200 else 0, 0, 0, 0, 0, 0, 0⟩
        ⟨some 5, "SELL", "T", 1, 1⟩).total_losses = 0 ∧
    (replay_step 0
        ⟨fun m => if m = "T" then 1 else 0,
          fun m => if m = "T" then 1 / 200 else 0, 0, 0, 0, 0, 0, 0⟩
        ⟨some 5, "SELL", "T", 1, 1⟩).total_realized_profit_sol
      = 1 - 1 / 200 := by
  obtain ⟨h1, h2, h3, h4, h5, h6⟩ :=
    C8_dust_sell_excluded_from_winrate 0
      ⟨fun m => if m = "T" then 1 else 0,
        fun m => if m = "T" then 1 / 200 else 0, 0, 0, 0, 0, 0, 0⟩
      ⟨some 5, "SELL", "T", 1, 1⟩ 5 rfl rfl
      (by norm_num)
      (by norm_num)
  refine ⟨h1, h2, ?_⟩
  rw [h5]
  norm_num

end SmartFlow
